import Mathlib

/-!
Verification of the NotFlappyBird terminal game (src/main.c) against its
natural-language specification.  The C data model and the operations the
claims are about are embedded shallowly: structs become structures, `int`
fields become `Int`, unsigned indices become `Nat`, the fixed-capacity
`views[10]` array becomes the list of its initialized prefix, and the
in-place loops become explicit state-passing folds/recursions.  File and
console I/O are external ports; their outcomes are passed as parameters
(the `rand()` stream becomes an explicit `Nat → Nat` oracle, `millis()` a
`Nat → Int` clock oracle indexed by call count).
-/

namespace NotFlappyBird

/-- `#define SCREEN_WIDTH 300` in src/main.c. -/
def SCREEN_WIDTH : Nat := 300

/-- `#define SCREEN_HEIGHT 80` in src/main.c. -/
def SCREEN_HEIGHT : Nat := 80

/-- `#define SCORE_COUNTER_DIGITS 5` in src/main.c. -/
def SCORE_COUNTER_DIGITS : Nat := 5

/-- `struct EntityView` of src/main.c: a single frame of an entity.
`display` is the loaded character buffer (the C code stores a trailing
NUL character in it; `display_size` is `display.length`). -/
structure EntityView where
  origin_x : Int
  origin_y : Int
  width : Int
  height : Int
  display : List Char
  deriving DecidableEq, Repr

/-- The zero-initialized `struct EntityView` (C `= {}` initialization);
also what the uninitialized tail of the `views[10]` array holds. -/
def defaultView : EntityView := ⟨0, 0, 0, 0, []⟩

/-- `struct Entity` of src/main.c.  The C `views[10]` array together with
`num_views` is embedded as the list of its first `num_views` entries. -/
structure Entity where
  x : Int
  y : Int
  views : List EntityView
  current_view : Nat
  visible : Bool
  deriving DecidableEq, Repr

/-- `entity->views[entity->current_view]`: the currently active view.
Indexing past the initialized prefix yields the zero-initialized view,
as in the zero-initialized C array. -/
def Entity.activeView (e : Entity) : EntityView :=
  e.views.getD e.current_view defaultView

/-- `create_entity` of src/main.c: zero-initialized entity with
`visible = true`. -/
def create_entity : Entity :=
  { x := 0, y := 0, views := [], current_view := 0, visible := true }

/-- The state mutation of `add_entity_view_from_file` on the entity:
`entity->views[entity->num_views] = view; entity->num_views++;`
(an append to the initialized prefix). -/
def add_entity_view (e : Entity) (v : EntityView) : Entity :=
  { e with views := e.views ++ [v] }

/-- `next_entity_view` of src/main.c:
`entity->current_view = (entity->current_view + 1) % entity->num_views`. -/
def next_entity_view (e : Entity) : Entity :=
  { e with current_view := (e.current_view + 1) % e.views.length }

/-- The spec's entity invariant: current-view index < number of views
whenever the view list is non-empty. -/
def viewInvariant (e : Entity) : Prop :=
  e.views ≠ [] → e.current_view < e.views.length

/-- The strengthened (inductive) entity invariant: a view-less entity has
current-view index 0, and otherwise the index is in range. -/
def entityInv (e : Entity) : Prop :=
  (e.views = [] → e.current_view = 0) ∧
  (e.views ≠ [] → e.current_view < e.views.length)

/-- `check_collision` of src/main.c, lines 763-786, translated clause by
clause (including the strict inequalities of `collision_x`/`collision_y`). -/
def check_collision (entity1 entity2 : Entity) : Bool :=
  let view1 := entity1.activeView
  let view2 := entity2.activeView
  let x1 := entity1.x - view1.origin_x
  let y1 := entity1.y - view1.origin_y
  let x2 := entity2.x - view2.origin_x
  let y2 := entity2.y - view2.origin_y
  let w1 := view1.width
  let h1 := view1.height
  let w2 := view2.width
  let h2 := view2.height
  let collision_x := ((decide (x1 < x2) && decide (x1 + w1 > x2)) ||
                      (decide (x2 < x1) && decide (x2 + w2 > x1)))
  let collision_y := ((decide (y1 < y2) && decide (y1 + h1 > y2)) ||
                      (decide (y2 < y1) && decide (y2 + h2 > y1)))
  (collision_x && collision_y)

/-- The specification's notion of strict overlap of the half-open boxes
`[a, a+wa)` and `[b, b+wb)` on one axis: the intersection is non-empty. -/
def boxesOverlap (a wa b wb : Int) : Prop :=
  max a b < min (a + wa) (b + wb)

instance (a wa b wb : Int) : Decidable (boxesOverlap a wa b wb) := by
  unfold boxesOverlap; infer_instance

/-- A 10 x 10 view anchored at its top-left corner. -/
def squareView : EntityView := ⟨0, 0, 10, 10, []⟩

/-- Entity with box `[0,10) x [0,10)`. -/
def boxEntityA : Entity := ⟨0, 0, [squareView], 0, true⟩

/-- Entity with box `[0,10) x [5,15)`: overlaps `boxEntityA` strictly on
both axes, with the same left edge. -/
def boxEntityB : Entity := ⟨0, 5, [squareView], 0, true⟩

/-- Entity with box `[10,20) x [0,10)`. -/
def boxEntityC : Entity := ⟨10, 0, [squareView], 0, true⟩

/-- Outcome of `add_entity_view_from_file`: either the updated entity, or a
fatal diagnostic followed by `exit(1)`. -/
inductive AddViewResult where
  | ok (e : Entity)
  | fatal (msg : String)
  deriving DecidableEq, Repr

/-- `add_entity_view_from_file` of src/main.c, lines 464-527, with the file
system abstracted as a port: `openOk` is whether `fopen` succeeded,
`parsedFields` is the `fscanf` return value, `allocOk` is whether `realloc`
succeeded, and `v` is the view assembled from the file.  The source checks
exactly these three conditions and then stores the view at
`views[num_views]` unconditionally: there is no capacity test. -/
def add_entity_view_from_file (e : Entity) (openOk : Bool) (parsedFields : Nat)
    (allocOk : Bool) (v : EntityView) : AddViewResult :=
  if !openOk then .fatal "Error opening file"
  else if parsedFields ≠ 4 then .fatal "Error parsing entity file"
  else if !allocOk then .fatal "Error allocating memory for entity view display"
  else .ok (add_entity_view e v)

/-- An entity already holding 10 views (the capacity of `views[10]`). -/
def fullEntity : Entity :=
  ⟨0, 0, List.replicate 10 defaultView, 0, true⟩

/-- A concrete score-counter digit list: `SCORE_COUNTER_DIGITS` digit
entities, each pre-loaded with 10 views (one per digit glyph). -/
def scoreDigits : List Entity :=
  List.replicate SCORE_COUNTER_DIGITS fullEntity

instance (e : Entity) : Decidable (viewInvariant e) := by
  unfold viewInvariant; infer_instance

instance (e : Entity) : Decidable (entityInv e) := by
  unfold entityInv; infer_instance

/-! ### Score counter -/

/-- In-place update of the list element at index `i` (a C array store
`l[i] = f l[i]`; out-of-range indices leave the list unchanged). -/
def modifyAt (l : List α) (i : Nat) (f : α → α) : List α :=
  match l[i]? with
  | some a => l.set i (f a)
  | none => l

/-- The `while (score > 0)` loop of `update_score_counter` (src/main.c,
lines 835-842): peel base-10 digits from the least significant, store each
as the digit entity's current view and make it visible.  Returns the
updated digit list and the final `digit_number`. -/
def update_score_digits (digits : List Entity) (score : Nat) (digit_number : Nat) :
    List Entity × Nat :=
  if h : 0 < score then
    let digit := score % 10
    let digits := modifyAt digits digit_number
      (fun e => { e with current_view := digit, visible := true })
    update_score_digits digits (score / 10) (digit_number + 1)
  else
    (digits, digit_number)
termination_by score
decreasing_by exact Nat.div_lt_self h (by norm_num)

/-- `update_score_counter` of src/main.c, lines 828-848, on the digit
entity list: decompose the score, then hide every digit entity from
`digit_number` up to `SCORE_COUNTER_DIGITS`. -/
def update_score_counter (digits : List Entity) (score : Nat) : List Entity :=
  let (digits, digit_number) := update_score_digits digits score 0
  (List.range (SCORE_COUNTER_DIGITS - digit_number)).foldl
    (fun ds j => modifyAt ds (digit_number + j) (fun e => { e with visible := false })) digits

/-- Number of base-10 digits of a natural number (zero digits for 0). -/
def numDigits (s : Nat) : Nat :=
  if h : 0 < s then numDigits (s / 10) + 1 else 0
termination_by s
decreasing_by exact Nat.div_lt_self h (by norm_num)

/-! ### Frame rendering and the double buffer -/

/-- A screen-sized character grid (`char frame[SCREEN_WIDTH][SCREEN_HEIGHT]`),
as a function from x and y to the stored character. -/
abbrev Frame := Nat → Nat → Char

/-- Store one character at one grid cell (`frame[x][y] = c`). -/
def setCell (frame : Frame) (x y : Nat) (c : Char) : Frame :=
  fun a b => if a = x ∧ b = y then c else frame a b

/-- `render_entity` of src/main.c, lines 416-446: paint the visible
entity's active view onto the frame.  The loop walks the display buffer
excluding its final (NUL) character, carrying a cursor that newline and
carriage-return characters reset to the left edge one row down; cells
outside the screen bounds are silently clipped. -/
def render_entity (entity : Entity) (frame : Frame) : Frame :=
  if !entity.visible then frame
  else
    let view := entity.activeView
    let start_x := entity.x - view.origin_x
    let start_y := entity.y - view.origin_y
    let chars := view.display.take (view.display.length - 1)
    (chars.foldl
      (fun (st : Int × Int × Frame) c =>
        if c = '\n' ∨ c = '\r' then
          (start_x, st.2.1 + 1, st.2.2)
        else
          let fr :=
            if 0 ≤ st.1 ∧ st.1 < (SCREEN_WIDTH : Int) ∧ 0 ≤ st.2.1 ∧ st.2.1 < (SCREEN_HEIGHT : Int)
            then setCell st.2.2 st.1.toNat st.2.1.toNat c
            else st.2.2
          (st.1 + 1, st.2.1, fr))
      (start_x, start_y, frame)).2.2

/-- `render_next_frame` of src/main.c, lines 368-390: clear the next frame
to blanks, paint every registered entity in registration order, then draw
the border — first the `'='` top and bottom rows, then the `'|'` left and
right columns. -/
def render_next_frame (entities : List Entity) : Frame :=
  let frame : Frame := fun _ _ => ' '
  let frame := entities.foldl (fun fr e => render_entity e fr) frame
  let frame := (List.range SCREEN_WIDTH).foldl
    (fun fr x => setCell (setCell fr x 0 '=') x (SCREEN_HEIGHT - 1) '=') frame
  (List.range SCREEN_HEIGHT).foldl
    (fun fr y => setCell (setCell fr 0 y '|') (SCREEN_WIDTH - 1) y '|') frame

/-- The cell scan order of `update_display`: y outer, x inner. -/
def scanCells : List (Nat × Nat) :=
  (List.range SCREEN_HEIGHT).flatMap (fun y => (List.range SCREEN_WIDTH).map (fun x => (x, y)))

/-- One positioned terminal write of `update_display`:
`set_cursor(x, y); printf("%c", next_frame[x][y])`. -/
structure CellWrite where
  x : Nat
  y : Nat
  c : Char
  deriving DecidableEq, Repr

/-- The body of `update_display`'s double loop at one cell: if the next
frame differs from the current frame there, emit a positioned write and
copy the character into the current frame. -/
def update_display_step (next_frame : Frame) (st : Frame × List CellWrite)
    (p : Nat × Nat) : Frame × List CellWrite :=
  if st.1 p.1 p.2 ≠ next_frame p.1 p.2 then
    (setCell st.1 p.1 p.2 (next_frame p.1 p.2), st.2 ++ [⟨p.1, p.2, next_frame p.1 p.2⟩])
  else st

/-- `update_display` of src/main.c, lines 396-409 (the flush): walk every
cell in scan order, writing only the changed ones.  Returns the updated
current frame and, in order, the positioned single-character writes that
were emitted to the terminal. -/
def update_display (current_frame next_frame : Frame) : Frame × List CellWrite :=
  scanCells.foldl (update_display_step next_frame) (current_frame, [])

/-- A blank current frame (every cell a space). -/
def blankFrame : Frame := fun _ _ => ' '

/-- A next frame differing from `blankFrame` in exactly one cell. -/
def dotFrame : Frame := fun x y => if x = 0 ∧ y = 0 then 'X' else ' '

/-! ### Obstacles, game state, game logic -/

/-- `enum ScreenType` of src/main.c. -/
inductive ScreenType where
  | TITLE_SCREEN
  | GAME_SCREEN
  deriving DecidableEq, Repr

/-- `struct Obstacle` of src/main.c. -/
structure Obstacle where
  x : Int
  y : Int
  gap_size : Int
  top_entity : Entity
  bottom_entity : Entity
  score_collected : Bool
  deriving DecidableEq, Repr

/-- `struct Bird` of src/main.c: the player entity plus its vertical
velocity (a C `float`). -/
structure Bird where
  entity : Entity
  velocity : Float

/-- `struct GameState` of src/main.c, restricted to the fields the modeled
operations touch.  The `score_counter` struct is embedded as its digit
entity list (its other fields are never read by the modeled code), and the
registered-entity pointer list is passed to `render_next_frame` directly. -/
structure GameState where
  bird : Bird
  obstacles : List Obstacle
  press_space_to_start : Entity
  screen_type : ScreenType
  title_text : Entity
  score : Nat
  score_counter : List Entity
  quit : Bool

/-- `update_obstacle` of src/main.c, lines 596-602: place the two part
entities at the obstacle's x, at `y - gap_size` and `y + gap_size`. -/
def update_obstacle (obstacle : Obstacle) : Obstacle :=
  { obstacle with
    top_entity := { obstacle.top_entity with x := obstacle.x, y := obstacle.y - obstacle.gap_size }
    bottom_entity :=
      { obstacle.bottom_entity with x := obstacle.x, y := obstacle.y + obstacle.gap_size } }

/-- The body of `scroll_world`'s obstacle loop (src/main.c, lines 612-629)
for one obstacle: move one cell left; on the game screen a newly passed
obstacle awards a score point; an obstacle whose x has fallen below minus
the width of its top part's first view is recycled to the right edge with
a fresh random vertical center and a cleared score flag; finally its part
entities are repositioned.  The score, score-counter digits and `rand()`
call counter are threaded through. -/
def scroll_one (screen : ScreenType) (bird_x : Int) (rands : Nat → Nat)
    (ob : Obstacle) (score : Nat) (digits : List Entity) (k : Nat) :
    Obstacle × Nat × List Entity × Nat :=
  let ob := { ob with x := ob.x - 1 }
  let r1 :=
    if screen = ScreenType.GAME_SCREEN ∧ ob.x < bird_x ∧ ob.score_collected = false then
      (({ ob with score_collected := true } : Obstacle), score + 1,
        update_score_counter digits (score + 1))
    else (ob, score, digits)
  let r2 :=
    if r1.1.x < -(r1.1.top_entity.views.getD 0 defaultView).width then
      (({ r1.1 with
          x := (SCREEN_WIDTH : Int),
          y := ((rands k % (SCREEN_HEIGHT - SCREEN_HEIGHT / 2) + SCREEN_HEIGHT / 4 : Nat) : Int),
          score_collected := false } : Obstacle), k + 1)
    else (r1.1, k)
  (update_obstacle r2.1, r1.2.1, r1.2.2, r2.2)

/-- The obstacle loop of `scroll_world` (src/main.c, lines 611-630):
`scroll_one` applied to each obstacle in order, threading the score,
digits and `rand()` counter. -/
def scroll_obstacles (screen : ScreenType) (bird_x : Int) (rands : Nat → Nat) :
    List Obstacle → Nat → List Entity → Nat → List Obstacle × Nat × List Entity × Nat
  | [], score, digits, k => ([], score, digits, k)
  | ob :: rest, score, digits, k =>
    let r := scroll_one screen bird_x rands ob score digits k
    let rr := scroll_obstacles screen bird_x rands rest r.2.1 r.2.2.1 r.2.2.2
    (r.1 :: rr.1, rr.2)

/-- `scroll_world` of src/main.c, lines 609-639: scroll all obstacles, and
on the title screen scroll the "press space to start" text rightwards,
wrapping it to the left of the screen after it exits the right edge. -/
def scroll_world (gs : GameState) (rands : Nat → Nat) : GameState :=
  let r := scroll_obstacles gs.screen_type gs.bird.entity.x rands gs.obstacles gs.score
    gs.score_counter 0
  let gs := { gs with obstacles := r.1, score := r.2.1, score_counter := r.2.2.1 }
  if gs.screen_type = ScreenType.TITLE_SCREEN then
    let p := { gs.press_space_to_start with x := gs.press_space_to_start.x + 1 }
    let p :=
      if p.x > (SCREEN_WIDTH : Int) then
        { p with x := 0 - (p.views.getD 0 defaultView).width }
      else p
    { gs with press_space_to_start := p }
  else gs

/-- The obstacle repositioning loop of `start_game` (src/main.c, lines
750-755): obstacle `i` goes to x `SCREEN_WIDTH/4 + i*SCREEN_WIDTH/count`
with a fresh random vertical center and a cleared score flag, and its part
entities are repositioned. -/
def reposition_obstacles (rands : Nat → Nat) (count : Nat) :
    List Obstacle → Nat → List Obstacle
  | [], _ => []
  | ob :: rest, i =>
    update_obstacle
      { ob with
        x := ((SCREEN_WIDTH / 4 + i * SCREEN_WIDTH / count : Nat) : Int),
        y := ((rands i % (SCREEN_HEIGHT - SCREEN_HEIGHT / 2) + SCREEN_HEIGHT / 4 : Nat) : Int),
        score_collected := false } :: reposition_obstacles rands count rest (i + 1)

/-- `start_game` of src/main.c, lines 735-756: switch to the game screen,
hide the title decorations, put the bird at the fixed start point
`(10, SCREEN_HEIGHT/2)`, zero the score and refresh the score display,
and reposition every obstacle. -/
def start_game (gs : GameState) (rands : Nat → Nat) : GameState :=
  let gs := { gs with screen_type := ScreenType.GAME_SCREEN }
  let gs := { gs with
    press_space_to_start := { gs.press_space_to_start with visible := false }
    title_text := { gs.title_text with visible := false } }
  let gs := { gs with bird := { gs.bird with entity :=
    { gs.bird.entity with x := 10, y := ((SCREEN_HEIGHT / 2 : Nat) : Int) } } }
  let gs := { gs with score := 0 }
  let gs := { gs with score_counter := update_score_counter gs.score_counter gs.score }
  { gs with obstacles := reposition_obstacles rands gs.obstacles.length gs.obstacles 0 }

/-- `end_game` of src/main.c, lines 792-798: back to the title screen,
score reset to 0, title and prompt decorations shown again. -/
def end_game (gs : GameState) : GameState :=
  { gs with
    screen_type := ScreenType.TITLE_SCREEN
    score := 0
    title_text := { gs.title_text with visible := true }
    press_space_to_start := { gs.press_space_to_start with visible := true } }

/-- The keys `game_tick` polls (`GetAsyncKeyState` over all key codes). -/
structure Keys where
  left : Bool
  right : Bool
  space : Bool
  esc : Bool

/-- The C cast `(int)` applied to the bird's `float` velocity: truncation
toward zero. -/
def floatToIntTrunc (f : Float) : Int :=
  if f < 0 then -(Int.ofNat (-f).toUInt64.toNat) else Int.ofNat f.toUInt64.toNat

/-- The keyboard scan of `game_tick` (src/main.c, lines 654-675).  The C
loop visits key codes in ascending order, so the held keys act in the
order ESC (27), SPACE (32), LEFT (37), RIGHT (39).  SPACE starts the game
from the title screen, then applies the flap impulse (clamped) and
advances the bird's animation view. -/
def game_tick_keys (gs : GameState) (keys : Keys) (rands : Nat → Nat) : GameState :=
  let gs := if keys.esc then { gs with quit := true } else gs
  let gs :=
    if keys.space then
      let gs := if gs.screen_type = ScreenType.TITLE_SCREEN then start_game gs rands else gs
      let gs :=
        if gs.bird.velocity > -2 then
          { gs with bird := { gs.bird with velocity := gs.bird.velocity - 2 } }
        else gs
      { gs with bird := { gs.bird with entity := next_entity_view gs.bird.entity } }
    else gs
  let gs :=
    if keys.left then
      { gs with bird := { gs.bird with entity :=
        { gs.bird.entity with x := gs.bird.entity.x - 1 } } }
    else gs
  if keys.right then
    { gs with bird := { gs.bird with entity :=
      { gs.bird.entity with x := gs.bird.entity.x + 1 } } }
  else gs

/-- The gravity step of `game_tick` (src/main.c, lines 678-680): the
velocity grows by 0.2 per tick up to the cap 1. -/
def game_tick_gravity (gs : GameState) : GameState :=
  if gs.bird.velocity < 1 then
    { gs with bird := { gs.bird with velocity := gs.bird.velocity + 0.2 } }
  else gs

/-- The title-screen autopilot of `game_tick` (src/main.c, lines 682-695):
a randomized upward impulse in the lower quarter of the screen, rightward
auto-scroll, wrap to the origin past the right edge. -/
def game_tick_autopilot (gs : GameState) (rands : Nat → Nat) : GameState :=
  let gs :=
    if gs.bird.entity.y > ((SCREEN_HEIGHT - SCREEN_HEIGHT / 4 : Nat) : Int) then
      { gs with bird := { gs.bird with velocity :=
        gs.bird.velocity - (3 + Float.ofNat (rands 0 % 10) / 8) } }
    else gs
  if gs.bird.entity.x < (SCREEN_WIDTH : Int) then
    { gs with bird := { gs.bird with entity :=
      { gs.bird.entity with x := gs.bird.entity.x + 1 } } }
  else
    { gs with bird := { gs.bird with entity := { gs.bird.entity with x := 0, y := 0 } } }

/-- One step of `game_tick`'s collision loop (src/main.c, lines 699-704):
end the game if the bird collides with either part of this obstacle. -/
def collide_step (gs : GameState) (ob : Obstacle) : GameState :=
  if check_collision gs.bird.entity ob.top_entity ||
     check_collision gs.bird.entity ob.bottom_entity then
    end_game gs
  else gs

/-- The game-screen checks of `game_tick` (src/main.c, lines 697-711):
collisions with every obstacle's parts, then the screen-bounds check,
each ending the game. -/
def game_tick_checks (gs : GameState) : GameState :=
  let gs := gs.obstacles.foldl collide_step gs
  if gs.bird.entity.x < 0 ∨ gs.bird.entity.x > (SCREEN_WIDTH : Int) ∨
     gs.bird.entity.y < 0 ∨ gs.bird.entity.y > (SCREEN_HEIGHT : Int) then
    end_game gs
  else gs

/-- `game_tick` of src/main.c, lines 653-714: key scan, gravity, title
autopilot, game-screen collision/bounds checks, and finally the truncated
velocity added to the bird's y. -/
def game_tick (gs : GameState) (keys : Keys) (rands : Nat → Nat) : GameState :=
  let gs := game_tick_keys gs keys rands
  let gs := game_tick_gravity gs
  let gs := if gs.screen_type = ScreenType.TITLE_SCREEN then game_tick_autopilot gs rands else gs
  let gs := if gs.screen_type = ScreenType.GAME_SCREEN then game_tick_checks gs else gs
  { gs with bird := { gs.bird with entity :=
    { gs.bird.entity with y := gs.bird.entity.y + floatToIntTrunc gs.bird.velocity } } }

/-- The "game ended" observable state: back on the title screen with score
0 and the title/prompt decorations shown (exactly what `end_game`
establishes). -/
def endedState (gs : GameState) : Prop :=
  gs.screen_type = ScreenType.TITLE_SCREEN ∧ gs.score = 0 ∧
  gs.title_text.visible = true ∧ gs.press_space_to_start.visible = true

/-- A concrete obstacle whose top part's first view is 10 wide and which
sits at x = -(10+1): one scroll tick must recycle it. -/
def recycledObstacle : Obstacle :=
  ⟨-11, 30, 8, boxEntityA, boxEntityA, true⟩

/-- A concrete game state on the title screen with one obstacle about to
be recycled. -/
def titleGameState : GameState :=
  { bird := ⟨boxEntityA, 0⟩
    obstacles := [recycledObstacle]
    press_space_to_start := boxEntityB
    screen_type := ScreenType.TITLE_SCREEN
    title_text := boxEntityC
    score := 0
    score_counter := scoreDigits
    quit := false }

/-- A concrete game state on the game screen whose bird is out of bounds
(x = -1) and whose obstacle list is empty. -/
def oobGameState : GameState :=
  { bird := ⟨{ boxEntityA with x := -1, y := 40 }, 0⟩
    obstacles := []
    press_space_to_start := boxEntityB
    screen_type := ScreenType.GAME_SCREEN
    title_text := boxEntityC
    score := 3
    score_counter := scoreDigits
    quit := false }

/-- The "only the flap key is held" input. -/
def flapKeys : Keys := ⟨false, false, true, false⟩

/-- The "no key is held" input. -/
def noKeys : Keys := ⟨false, false, false, false⟩

/-! ### Periodic timers -/

/-- `struct PeriodicTimer` of src/main.c: a fixed period, the time of the
last trigger, and a callback acting on the game state. -/
structure PeriodicTimer (σ : Type) where
  period : Int
  last_trigger_time : Int
  callback : σ → σ

/-- The loop of `run_periodic_timers` (src/main.c, lines 722-729).
`clock` is the `millis()` oracle, indexed by how many times `millis()` has
been called so far; each iteration calls it once for the comparison and,
if the timer fires, once more to stamp `last_trigger_time`.  Returns the
final state, the updated timers, and the indices (`idx`-based) of the
timers whose callbacks were invoked, in invocation order. -/
def run_timers_loop (clock : Nat → Int) :
    σ → List (PeriodicTimer σ) → Nat → Nat → σ × List (PeriodicTimer σ) × List Nat
  | gs, [], _, _ => (gs, [], [])
  | gs, t :: rest, k, idx =>
    if clock k - t.last_trigger_time > t.period then
      let gs := t.callback gs
      let t := { t with last_trigger_time := clock (k + 1) }
      let r := run_timers_loop clock gs rest (k + 2) (idx + 1)
      (r.1, t :: r.2.1, idx :: r.2.2)
    else
      let r := run_timers_loop clock gs rest (k + 1) (idx + 1)
      (r.1, t :: r.2.1, r.2.2)

/-- `run_periodic_timers` of src/main.c: one scheduler pass over the
timer list. -/
def run_periodic_timers (gs : σ) (timers : List (PeriodicTimer σ)) (clock : Nat → Int) :
    σ × List (PeriodicTimer σ) × List Nat :=
  run_timers_loop clock gs timers 0 0

end NotFlappyBird

namespace NotFlappyBird

/-! ### Theorems -/

lemma check_collision_eq (entity1 entity2 : Entity) :
    check_collision entity1 entity2 = true ↔
      (((entity1.x - entity1.activeView.origin_x < entity2.x - entity2.activeView.origin_x ∧
         entity2.x - entity2.activeView.origin_x <
           entity1.x - entity1.activeView.origin_x + entity1.activeView.width) ∨
        (entity2.x - entity2.activeView.origin_x < entity1.x - entity1.activeView.origin_x ∧
         entity1.x - entity1.activeView.origin_x <
           entity2.x - entity2.activeView.origin_x + entity2.activeView.width)) ∧
       ((entity1.y - entity1.activeView.origin_y < entity2.y - entity2.activeView.origin_y ∧
         entity2.y - entity2.activeView.origin_y <
           entity1.y - entity1.activeView.origin_y + entity1.activeView.height) ∨
        (entity2.y - entity2.activeView.origin_y < entity1.y - entity1.activeView.origin_y ∧
         entity1.y - entity1.activeView.origin_y <
           entity2.y - entity2.activeView.origin_y + entity2.activeView.height))) := by
  simp only [check_collision, Bool.and_eq_true, Bool.or_eq_true, decide_eq_true_eq]

/-- C1 counterexample.  The boxes of `boxEntityA` and `boxEntityB` are
`[0,10) x [0,10)` and `[0,10) x [5,15)`: they overlap strictly on both
axes, yet `check_collision` returns `false` (the code requires the left
edges to differ), so the claimed "collide iff the boxes overlap strictly
on both axes" is false at this concrete input. -/
theorem check_collision_not_overlap_iff :
    ¬ (check_collision boxEntityA boxEntityB = true ↔
        (boxesOverlap (boxEntityA.x - boxEntityA.activeView.origin_x) boxEntityA.activeView.width
           (boxEntityB.x - boxEntityB.activeView.origin_x) boxEntityB.activeView.width ∧
         boxesOverlap (boxEntityA.y - boxEntityA.activeView.origin_y) boxEntityA.activeView.height
           (boxEntityB.y - boxEntityB.activeView.origin_y) boxEntityB.activeView.height)) := by
  decide

/-- C1 (amended): for entities whose active views have positive width and
height, `check_collision` returns true iff the two half-open boxes overlap
strictly on both axes AND the left edges differ AND the top edges differ;
moreover the boxes `[0,10) x [0,10)` and `[10,20) x [0,10)` (zero
separation on x, full overlap on y) do not collide. -/
theorem check_collision_iff_overlap_and_distinct_edges :
    (∀ entity1 entity2 : Entity,
      entity1.views ≠ [] → entity2.views ≠ [] →
      0 < entity1.activeView.width → 0 < entity1.activeView.height →
      0 < entity2.activeView.width → 0 < entity2.activeView.height →
      (check_collision entity1 entity2 = true ↔
        (boxesOverlap (entity1.x - entity1.activeView.origin_x) entity1.activeView.width
            (entity2.x - entity2.activeView.origin_x) entity2.activeView.width ∧
         boxesOverlap (entity1.y - entity1.activeView.origin_y) entity1.activeView.height
            (entity2.y - entity2.activeView.origin_y) entity2.activeView.height ∧
         entity1.x - entity1.activeView.origin_x ≠ entity2.x - entity2.activeView.origin_x ∧
         entity1.y - entity1.activeView.origin_y ≠ entity2.y - entity2.activeView.origin_y))) ∧
    check_collision boxEntityA boxEntityC = false := by
  refine ⟨?_, by decide⟩
  intro e1 e2 _ _ hw1 hh1 hw2 hh2
  rw [check_collision_eq]
  unfold boxesOverlap
  constructor
  · rintro ⟨hx, hy⟩
    refine ⟨?_, ?_, ?_, ?_⟩
    · rcases hx with ⟨h1, h2⟩ | ⟨h1, h2⟩ <;> rw [max_lt_iff, lt_min_iff, lt_min_iff] <;> omega
    · rcases hy with ⟨h1, h2⟩ | ⟨h1, h2⟩ <;> rw [max_lt_iff, lt_min_iff, lt_min_iff] <;> omega
    · rcases hx with ⟨h1, _⟩ | ⟨h1, _⟩ <;> omega
    · rcases hy with ⟨h1, _⟩ | ⟨h1, _⟩ <;> omega
  · rintro ⟨hx, hy, hxe, hye⟩
    rw [max_lt_iff, lt_min_iff, lt_min_iff] at hx hy
    constructor
    · rcases lt_trichotomy (e1.x - e1.activeView.origin_x) (e2.x - e2.activeView.origin_x) with
        h | h | h
      · exact Or.inl ⟨h, by omega⟩
      · exact absurd h hxe
      · exact Or.inr ⟨h, by omega⟩
    · rcases lt_trichotomy (e1.y - e1.activeView.origin_y) (e2.y - e2.activeView.origin_y) with
        h | h | h
      · exact Or.inl ⟨h, by omega⟩
      · exact absurd h hye
      · exact Or.inr ⟨h, by omega⟩

/-- C1 witness: the amended equivalence instantiated at the concrete pair
`boxEntityA`, `boxEntityB` (which have the same left edge, hence no
collision), and the concrete boundary pair evaluated. -/
theorem check_collision_iff_overlap_and_distinct_edges_witness :
    (check_collision boxEntityA boxEntityB = true ↔
      (boxesOverlap 0 10 0 10 ∧ boxesOverlap 0 10 5 10 ∧ (0 : Int) ≠ 0 ∧ (0 : Int) ≠ 5)) ∧
    check_collision boxEntityA boxEntityC = false := by
  have h := check_collision_iff_overlap_and_distinct_edges
  exact ⟨h.1 boxEntityA boxEntityB (by decide) (by decide) (by decide) (by decide)
      (by decide) (by decide), h.2⟩

/-- C10: two entities whose active views give them the same left edge never
collide, whatever their sizes and vertical positions; in particular an
entity never collides with itself. -/
theorem check_collision_same_left_edge_false :
    (∀ entity1 entity2 : Entity,
      entity1.views ≠ [] → entity2.views ≠ [] →
      entity1.x - entity1.activeView.origin_x = entity2.x - entity2.activeView.origin_x →
      check_collision entity1 entity2 = false) ∧
    (∀ e : Entity, check_collision e e = false) := by
  have key : ∀ e1 e2 : Entity,
      e1.x - e1.activeView.origin_x = e2.x - e2.activeView.origin_x →
      check_collision e1 e2 = false := by
    intro e1 e2 h
    rw [← Bool.not_eq_true, check_collision_eq]
    rintro ⟨⟨h1, _⟩ | ⟨h1, _⟩, _⟩ <;> omega
  exact ⟨fun e1 e2 _ _ h => key e1 e2 h, fun e => key e e rfl⟩

/-- C10 witness: the same-left-edge part at the concrete entities
`boxEntityA` and `boxEntityB`, and the self-collision part instantiated. -/
theorem check_collision_same_left_edge_false_witness :
    check_collision boxEntityA boxEntityB = false ∧
    check_collision boxEntityA boxEntityA = false := by
  exact ⟨check_collision_same_left_edge_false.1 boxEntityA boxEntityB (by decide) (by decide)
      (by decide), check_collision_same_left_edge_false.2 boxEntityA⟩

lemma length_modifyAt (l : List α) (i : Nat) (f : α → α) :
    (modifyAt l i f).length = l.length := by
  unfold modifyAt
  cases h : l[i]? with
  | none => rfl
  | some a => simp

lemma getElem?_modifyAt (l : List α) (i j : Nat) (f : α → α) :
    (modifyAt l i f)[j]? = if j = i then (l[j]?).map f else l[j]? := by
  unfold modifyAt
  cases h : l[i]? with
  | none =>
    rcases eq_or_ne j i with rfl | hne
    · simp [h]
    · simp [hne]
  | some a =>
    have hi : i < l.length := by
      by_contra hn
      push_neg at hn
      rw [List.getElem?_eq_none hn] at h
      exact Option.noConfusion h
    rcases eq_or_ne j i with rfl | hne
    · rw [if_pos rfl, List.getElem?_set_eq_of_lt _ hi, h]
      rfl
    · rw [if_neg hne, List.getElem?_set_ne (Ne.symm hne)]

lemma numDigits_zero : numDigits 0 = 0 := by
  rw [numDigits]
  simp

lemma numDigits_of_pos {s : Nat} (h : 0 < s) : numDigits s = numDigits (s / 10) + 1 := by
  rw [numDigits, dif_pos h]

lemma numDigits_le_of_lt_pow : ∀ (k s : Nat), s < 10 ^ k → numDigits s ≤ k := by
  intro k
  induction k with
  | zero =>
    intro s hs
    interval_cases s
    simp [numDigits_zero]
  | succ k ih =>
    intro s hs
    rcases Nat.eq_zero_or_pos s with rfl | hp
    · simp [numDigits_zero]
    · rw [numDigits_of_pos hp]
      have : s / 10 < 10 ^ k := by
        rw [Nat.div_lt_iff_lt_mul (by norm_num)]
        calc s < 10 ^ (k + 1) := hs
        _ = 10 ^ k * 10 := by ring
      exact Nat.succ_le_succ (ih _ this)

/-- The digit mutation stored by the decomposition loop at offset `i - dn`. -/
lemma update_score_digits_spec :
    ∀ (s : Nat) (digits : List Entity) (dn : Nat),
      (update_score_digits digits s dn).2 = dn + numDigits s ∧
      ∀ i, (update_score_digits digits s dn).1[i]? =
        if dn ≤ i ∧ i < dn + numDigits s then
          (digits[i]?).map
            (fun e => { e with current_view := s / 10 ^ (i - dn) % 10, visible := true })
        else digits[i]? := by
  intro s
  induction s using Nat.strong_induction_on with
  | _ s ih =>
    intro digits dn
    rw [update_score_digits]
    by_cases h : 0 < s
    · rw [dif_pos h]
      have hdiv : s / 10 < s := Nat.div_lt_self h (by norm_num)
      have ihd := ih (s / 10) hdiv
        (modifyAt digits dn (fun e => { e with current_view := s % 10, visible := true }))
        (dn + 1)
      rw [numDigits_of_pos h]
      refine ⟨by rw [ihd.1]; omega, ?_⟩
      intro i
      rw [ihd.2 i, getElem?_modifyAt]
      rcases eq_or_ne i dn with rfl | hne
      · rw [if_neg (by omega), if_pos rfl, if_pos (by omega)]
        simp [Nat.sub_self, Nat.div_one]
      · rw [if_neg hne]
        by_cases hc : dn + 1 ≤ i ∧ i < dn + 1 + numDigits (s / 10)
        · rw [if_pos hc, if_pos (by omega)]
          have hexp : 10 * 10 ^ (i - (dn + 1)) = 10 ^ (i - dn) := by
            have h1 : i - dn = (i - (dn + 1)) + 1 := by omega
            rw [h1, pow_succ, Nat.mul_comm]
          have hdd : s / 10 / 10 ^ (i - (dn + 1)) = s / 10 ^ (i - dn) := by
            rw [Nat.div_div_eq_div_mul, hexp]
          simp only [hdd]
        · rw [if_neg hc, if_neg (by omega)]
    · rw [dif_neg h]
      have hs : s = 0 := by omega
      subst hs
      refine ⟨by simp [numDigits_zero], ?_⟩
      intro i
      rw [if_neg (by rw [numDigits_zero]; omega)]

/-- The hide loop of `update_score_counter`: indices `dn ≤ i < dn + n`
become invisible, everything else is untouched. -/
lemma hide_fold_spec :
    ∀ (n : Nat) (ds : List Entity) (dn i : Nat),
      ((List.range n).foldl
          (fun ds j => modifyAt ds (dn + j) (fun e => { e with visible := false })) ds)[i]? =
        if dn ≤ i ∧ i < dn + n then (ds[i]?).map (fun e => { e with visible := false })
        else ds[i]? := by
  intro n
  induction n with
  | zero =>
    intro ds dn i
    rw [if_neg (by omega)]
    rfl
  | succ n ihn =>
    intro ds dn i
    rw [List.range_succ, List.foldl_append, List.foldl_cons, List.foldl_nil,
      getElem?_modifyAt, ihn]
    rcases eq_or_ne i (dn + n) with rfl | hne
    · rw [if_pos rfl, if_neg (by omega), if_pos (by omega)]
    · rw [if_neg hne]
      by_cases hc : dn ≤ i ∧ i < dn + n
      · rw [if_pos hc, if_pos (by omega)]
      · rw [if_neg hc, if_neg (by omega)]

/-- Cell-level description of `update_score_counter`: the first
`numDigits s` digit entities receive their digit value and become visible,
the remaining ones up to `SCORE_COUNTER_DIGITS` become invisible, and
anything beyond is untouched. -/
lemma update_score_counter_getElem? (digits : List Entity) (s i : Nat) :
    (update_score_counter digits s)[i]? =
      if i < numDigits s then
        (digits[i]?).map (fun e => { e with current_view := s / 10 ^ i % 10, visible := true })
      else if i < SCORE_COUNTER_DIGITS then
        (digits[i]?).map (fun e => { e with visible := false })
      else digits[i]? := by
  unfold update_score_counter
  have hspec := update_score_digits_spec s digits 0
  rcases hud : update_score_digits digits s 0 with ⟨ds2, dn2⟩
  rw [hud] at hspec
  have hdn : dn2 = numDigits s := by simpa using hspec.1
  subst hdn
  simp only [hud]
  rw [hide_fold_spec]
  have hcell := hspec.2 i
  simp only [Nat.zero_add, Nat.sub_zero, Nat.zero_le, true_and] at hcell
  rw [hcell]
  by_cases h1 : i < numDigits s
  · rw [if_pos h1, if_neg (by omega), if_pos h1]
  · rw [if_neg h1, if_neg h1]
    by_cases h2 : i < SCORE_COUNTER_DIGITS
    · rw [if_pos (by omega), if_pos h2]
    · rw [if_neg (by omega), if_neg h2]

/-- C7: the source never reports a capacity error.  For EVERY entity —
including one already holding the maximum 10 views, such as `fullEntity` —
a successfully opened, parsed and allocated view file makes
`add_entity_view_from_file` return `ok` with the view appended after the
existing ones (in C this is the unchecked write to `views[num_views]`,
out of bounds at capacity), rather than the claimed fatal
ResourceExhaustion diagnostic. -/
theorem add_entity_view_from_file_never_capacity_fatal :
    (∀ (e : Entity) (v : EntityView),
      add_entity_view_from_file e true 4 true v = .ok { e with views := e.views ++ [v] }) ∧
    fullEntity.views.length = 10 ∧
    add_entity_view_from_file fullEntity true 4 true squareView =
      .ok { fullEntity with views := fullEntity.views ++ [squareView] } ∧
    ({ fullEntity with views := fullEntity.views ++ [squareView] } : Entity).views.length = 11 := by
  exact ⟨fun e v => rfl, by decide, rfl, by decide⟩

/-- C3: for a full score-counter digit list and any score below `10^5`,
after `update_score_counter` digit entity `i` (least-significant first) is
visible iff `i` is below the number of base-10 digits of the score, and
every visible digit entity's active-view index is `(s / 10^i) % 10`. -/
theorem update_score_counter_digit_values :
    ∀ (digits : List Entity) (s i : Nat),
      digits.length = SCORE_COUNTER_DIGITS → s < 10 ^ 5 → i < SCORE_COUNTER_DIGITS →
      ∃ e, (update_score_counter digits s)[i]? = some e ∧
        (e.visible = true ↔ i < numDigits s) ∧
        (i < numDigits s → e.current_view = s / 10 ^ i % 10) := by
  intro digits s i hlen hs hi
  have hilen : i < digits.length := by rw [hlen]; exact hi
  have he0 : digits[i]? = some digits[i] := List.getElem?_eq_getElem hilen
  rw [update_score_counter_getElem?]
  by_cases h1 : i < numDigits s
  · rw [if_pos h1, he0]
    exact ⟨_, rfl, by simp [h1], fun _ => rfl⟩
  · rw [if_neg h1, if_pos hi, he0]
    exact ⟨_, rfl, by simp [h1], fun hlt => absurd hlt h1⟩

/-- C3 witness: the claim's concrete cases.  With score 1234, digit 0
holds view 4 and digit 4 is invisible; with score 0 digit 0 is invisible
(`numDigits 0 = 0`). -/
theorem update_score_counter_digit_values_witness :
    (∃ e, (update_score_counter scoreDigits 1234)[0]? = some e ∧
      (e.visible = true ↔ 0 < numDigits 1234) ∧
      (0 < numDigits 1234 → e.current_view = 1234 / 10 ^ 0 % 10)) ∧
    (∃ e, (update_score_counter scoreDigits 1234)[4]? = some e ∧
      (e.visible = true ↔ 4 < numDigits 1234) ∧
      (4 < numDigits 1234 → e.current_view = 1234 / 10 ^ 4 % 10)) ∧
    (∃ e, (update_score_counter scoreDigits 0)[0]? = some e ∧
      (e.visible = true ↔ 0 < numDigits 0) ∧
      (0 < numDigits 0 → e.current_view = 0 / 10 ^ 0 % 10)) := by
  refine ⟨update_score_counter_digit_values scoreDigits 1234 0 (by decide) (by decide) (by decide),
    update_score_counter_digit_values scoreDigits 1234 4 (by decide) (by decide) (by decide),
    update_score_counter_digit_values scoreDigits 0 0 (by decide) (by decide) (by decide)⟩

/-- C6 counterexample.  The invariant as stated ("current-view index <
number of views whenever the view list is non-empty") is NOT preserved by
the view-appending mutation of `add_entity_view_from_file` from an
arbitrary state satisfying it: an entity with no views and current-view
index 1 satisfies the invariant vacuously and is under capacity, but after
appending one view the index 1 is out of range. -/
theorem viewInvariant_not_preserved_by_add :
    viewInvariant (⟨0, 0, [], 1, true⟩ : Entity) ∧
    (⟨0, 0, [], 1, true⟩ : Entity).views.length < 10 ∧
    ¬ viewInvariant (add_entity_view (⟨0, 0, [], 1, true⟩ : Entity) squareView) := by
  decide

/-- C6 (amended): the strengthened invariant `entityInv` (current-view
index 0 when there are no views, in range otherwise) implies the stated
invariant, holds after `create_entity`, and is preserved by
`add_entity_view` under its capacity precondition, by `next_entity_view`
on entities with at least one view, and by `update_score_counter` on digit
entities pre-loaded with 10 views. -/
theorem entityInv_preservation :
    (∀ e : Entity, entityInv e → viewInvariant e) ∧
    entityInv create_entity ∧
    (∀ (e : Entity) (v : EntityView),
      e.views.length < 10 → entityInv e → entityInv (add_entity_view e v)) ∧
    (∀ e : Entity, e.views ≠ [] → entityInv e → entityInv (next_entity_view e)) ∧
    (∀ (digits : List Entity) (s : Nat),
      (∀ e ∈ digits, e.views.length = 10) → (∀ e ∈ digits, entityInv e) →
      ∀ e ∈ update_score_counter digits s, entityInv e) := by
  refine ⟨fun e h => h.2, ⟨fun _ => rfl, fun h => absurd rfl h⟩, ?_, ?_, ?_⟩
  · intro e v _ hinv
    obtain ⟨h0, h1⟩ := hinv
    constructor
    · intro h
      simp [add_entity_view] at h
    · intro _
      simp only [add_entity_view, List.length_append, List.length_singleton]
      rcases eq_or_ne e.views [] with he | he
      · have := h0 he
        simp [he, this]
      · have := h1 he
        omega
  · intro e he hinv
    obtain ⟨_, h1⟩ := hinv
    have hn : 0 < e.views.length := List.length_pos.mpr he
    constructor
    · intro h
      exact absurd h (by simpa [next_entity_view] using he)
    · intro _
      simpa [next_entity_view] using Nat.mod_lt _ hn
  · intro digits s h10 hinv e he
    obtain ⟨i, hi⟩ := List.mem_iff_getElem?.mp he
    rw [update_score_counter_getElem?] at hi
    by_cases h1 : i < numDigits s
    · rw [if_pos h1] at hi
      cases he0 : digits[i]? with
      | none => rw [he0] at hi; exact Option.noConfusion hi
      | some e0 =>
        rw [he0] at hi
        have hmem : e0 ∈ digits := List.getElem?_mem he0
        have hlen : e0.views.length = 10 := h10 e0 hmem
        obtain rfl : ({ e0 with current_view := s / 10 ^ i % 10, visible := true } : Entity) = e :=
          Option.some_injective _ hi
        refine ⟨fun h => ?_, fun _ => ?_⟩
        · have hv : e0.views = [] := by simpa using h
          rw [hv] at hlen
          simp at hlen
        · show s / 10 ^ i % 10 < e0.views.length
          rw [hlen]
          exact Nat.mod_lt _ (by norm_num)
    · rw [if_neg h1] at hi
      by_cases h2 : i < SCORE_COUNTER_DIGITS
      · rw [if_pos h2] at hi
        cases he0 : digits[i]? with
        | none => rw [he0] at hi; exact Option.noConfusion hi
        | some e0 =>
          rw [he0] at hi
          have hmem : e0 ∈ digits := List.getElem?_mem he0
          obtain rfl : ({ e0 with visible := false } : Entity) = e :=
            Option.some_injective _ hi
          obtain ⟨h0, hlt⟩ := hinv e0 hmem
          exact ⟨h0, hlt⟩
      · rw [if_neg h2] at hi
        exact hinv e (List.getElem?_mem hi)

lemma run_timers_loop_log_lb (clock : Nat → Int) :
    ∀ (l : List (PeriodicTimer σ)) (gs : σ) (k idx : Nat),
      ∀ j ∈ (run_timers_loop clock gs l k idx).2.2, idx ≤ j := by
  intro l
  induction l with
  | nil =>
    intro gs k idx j hj
    simp [run_timers_loop] at hj
  | cons t rest ih =>
    intro gs k idx j hj
    by_cases hc : clock k - t.last_trigger_time > t.period
    · simp only [run_timers_loop, if_pos hc, List.mem_cons] at hj
      rcases hj with rfl | hj
      · exact Nat.le_refl j
      · have := ih (t.callback gs) (k + 2) (idx + 1) j hj
        omega
    · simp only [run_timers_loop, if_neg hc] at hj
      have := ih gs (k + 1) (idx + 1) j hj
      omega

/-- One scheduler pass over the timer list with a constant clock:
per-timer invocation count and final trigger time. -/
lemma run_timers_loop_spec (now : Int) :
    ∀ (l : List (PeriodicTimer σ)) (gs : σ) (k idx i : Nat) (t : PeriodicTimer σ),
      l[i]? = some t →
      ((run_timers_loop (fun _ => now) gs l k idx).2.2.count (idx + i) =
        if now - t.last_trigger_time > t.period then 1 else 0) ∧
      ∃ t', (run_timers_loop (fun _ => now) gs l k idx).2.1[i]? = some t' ∧
        t'.period = t.period ∧ t'.callback = t.callback ∧
        t'.last_trigger_time =
          if now - t.last_trigger_time > t.period then now else t.last_trigger_time := by
  intro l
  induction l with
  | nil =>
    intro gs k idx i t ht
    exact absurd ht (by simp)
  | cons t0 rest ih =>
    intro gs k idx i t ht
    have heq : run_timers_loop (fun _ => now) gs (t0 :: rest) k idx =
        if now - t0.last_trigger_time > t0.period then
          ((run_timers_loop (fun _ => now) (t0.callback gs) rest (k + 2) (idx + 1)).1,
            { t0 with last_trigger_time := now } ::
              (run_timers_loop (fun _ => now) (t0.callback gs) rest (k + 2) (idx + 1)).2.1,
            idx :: (run_timers_loop (fun _ => now) (t0.callback gs) rest (k + 2) (idx + 1)).2.2)
        else
          ((run_timers_loop (fun _ => now) gs rest (k + 1) (idx + 1)).1,
            t0 :: (run_timers_loop (fun _ => now) gs rest (k + 1) (idx + 1)).2.1,
            (run_timers_loop (fun _ => now) gs rest (k + 1) (idx + 1)).2.2) := by
      rw [run_timers_loop]
    rw [heq]
    by_cases hc : now - t0.last_trigger_time > t0.period
    · rw [if_pos hc]
      cases i with
      | zero =>
        rw [List.getElem?_cons_zero] at ht
        have hte : t = t0 := (Option.some_injective _ ht).symm
        subst hte
        have hnotmem : (idx : Nat) ∉
            (run_timers_loop (fun _ => now) (t.callback gs) rest (k + 2) (idx + 1)).2.2 := by
          intro hmem
          have := run_timers_loop_log_lb (fun _ => now) rest (t.callback gs) (k + 2) (idx + 1)
            idx hmem
          omega
        refine ⟨?_, { t with last_trigger_time := now }, by simp, rfl, rfl, by rw [if_pos hc]⟩
        show List.count (idx + 0) (idx :: _) = _
        rw [Nat.add_zero, List.count_cons_self, List.count_eq_zero_of_not_mem hnotmem,
          if_pos hc]
      | succ j =>
        rw [List.getElem?_cons_succ] at ht
        have ihj := ih (t0.callback gs) (k + 2) (idx + 1) j t ht
        have harg : idx + 1 + j = idx + (j + 1) := by omega
        rw [harg] at ihj
        constructor
        · show List.count (idx + (j + 1)) (idx :: _) = _
          have hne : ¬ ((idx == idx + (j + 1)) = true) := by
            rw [beq_iff_eq]
            omega
          rw [List.count_cons, if_neg hne, Nat.add_zero, ihj.1]
        · obtain ⟨t', ht', hp, hcb, hl⟩ := ihj.2
          exact ⟨t', by rw [List.getElem?_cons_succ]; exact ht', hp, hcb, hl⟩
    · rw [if_neg hc]
      cases i with
      | zero =>
        rw [List.getElem?_cons_zero] at ht
        have hte : t = t0 := (Option.some_injective _ ht).symm
        subst hte
        have hnotmem : (idx : Nat) ∉
            (run_timers_loop (fun _ => now) gs rest (k + 1) (idx + 1)).2.2 := by
          intro hmem
          have := run_timers_loop_log_lb (fun _ => now) rest gs (k + 1) (idx + 1) idx hmem
          omega
        refine ⟨?_, t, by simp, rfl, rfl, by rw [if_neg hc]⟩
        show List.count (idx + 0) _ = _
        rw [Nat.add_zero, List.count_eq_zero_of_not_mem hnotmem, if_neg hc]
      | succ j =>
        rw [List.getElem?_cons_succ] at ht
        have ihj := ih gs (k + 1) (idx + 1) j t ht
        have harg : idx + 1 + j = idx + (j + 1) := by omega
        rw [harg] at ihj
        exact ⟨ihj.1, by
          obtain ⟨t', ht', hp, hcb, hl⟩ := ihj.2
          exact ⟨t', by rw [List.getElem?_cons_succ]; exact ht', hp, hcb, hl⟩⟩

/-- C9: in one scheduler pass at time `now`, the callback of timer `i` is
invoked exactly once if `now - lastTrigger > period` (strict) and zero
times otherwise — in particular exactly once even when many periods have
elapsed — and exactly the fired timers get `lastTrigger` set to `now`. -/
theorem run_periodic_timers_fires_once :
    ∀ {σ : Type} (gs : σ) (timers : List (PeriodicTimer σ)) (now : Int) (i : Nat)
      (t : PeriodicTimer σ), timers[i]? = some t →
      ((run_periodic_timers gs timers (fun _ => now)).2.2.count i =
        if now - t.last_trigger_time > t.period then 1 else 0) ∧
      ∃ t', (run_periodic_timers gs timers (fun _ => now)).2.1[i]? = some t' ∧
        t'.period = t.period ∧ t'.callback = t.callback ∧
        t'.last_trigger_time =
          if now - t.last_trigger_time > t.period then now else t.last_trigger_time := by
  intro σ gs timers now i t ht
  have h := run_timers_loop_spec now timers gs 0 0 i t ht
  rwa [Nat.zero_add] at h

/-- C9 witness: a single timer with period 50 last triggered at 0, one pass
at time 100: the callback fires exactly once and the trigger time becomes
100. -/
theorem run_periodic_timers_fires_once_witness :
    ((run_periodic_timers (0 : Nat) [⟨50, 0, id⟩] (fun _ => (100 : Int))).2.2.count 0 =
      if (100 : Int) - (0 : Int) > (50 : Int) then 1 else 0) ∧
    ∃ t', (run_periodic_timers (0 : Nat) [⟨50, 0, id⟩] (fun _ => (100 : Int))).2.1[0]? =
        some t' ∧
      t'.period = (50 : Int) ∧ t'.callback = id ∧
      t'.last_trigger_time = if (100 : Int) - (0 : Int) > (50 : Int) then (100 : Int) else 0 :=
  run_periodic_timers_fires_once 0 [⟨50, 0, id⟩] 100 0 ⟨50, 0, id⟩ rfl

/-- A recycled obstacle's final value only depends on the obstacle itself
and the current `rand()` counter: right edge, fresh random center in the
band, cleared flag, parts repositioned. -/
lemma scroll_one_recycled (screen : ScreenType) (bx : Int) (rands : Nat → Nat)
    (ob : Obstacle) (s : Nat) (d : List Entity) (k : Nat)
    (h : ob.x - 1 < -(ob.top_entity.views.getD 0 defaultView).width) :
    (scroll_one screen bx rands ob s d k).1 =
      update_obstacle
        { ob with
          x := (SCREEN_WIDTH : Int)
          y := ((rands k % (SCREEN_HEIGHT - SCREEN_HEIGHT / 2) + SCREEN_HEIGHT / 4 : Nat) : Int)
          score_collected := false } := by
  have h' : ob.x - 1 < -(ob.top_entity.views[0]?.getD defaultView).width := by
    rwa [List.getD_eq_getElem?_getD] at h
  by_cases hsc : screen = ScreenType.GAME_SCREEN ∧ ob.x - 1 < bx ∧ ob.score_collected = false
  · simp [scroll_one, hsc, h', update_obstacle]
  · simp [scroll_one, hsc, h', update_obstacle]

/-- Element `i` of the scrolled obstacle list is `scroll_one` of element
`i` of the input, at some threaded score/digits/rand-counter state. -/
lemma scroll_obstacles_getElem? :
    ∀ (l : List Obstacle) (screen : ScreenType) (bx : Int) (rands : Nat → Nat)
      (score : Nat) (digits : List Entity) (k i : Nat) (ob : Obstacle),
      l[i]? = some ob →
      ∃ s' d' k', (scroll_obstacles screen bx rands l score digits k).1[i]? =
        some (scroll_one screen bx rands ob s' d' k').1 := by
  intro l
  induction l with
  | nil =>
    intro screen bx rands score digits k i ob ht
    exact absurd ht (by simp)
  | cons ob0 rest ih =>
    intro screen bx rands score digits k i ob ht
    cases i with
    | zero =>
      rw [List.getElem?_cons_zero] at ht
      have hob : ob = ob0 := (Option.some_injective _ ht).symm
      subst hob
      exact ⟨score, digits, k, by simp [scroll_obstacles]⟩
    | succ j =>
      rw [List.getElem?_cons_succ] at ht
      obtain ⟨s', d', k', hres⟩ := ih screen bx rands
        (scroll_one screen bx rands ob0 score digits k).2.1
        (scroll_one screen bx rands ob0 score digits k).2.2.1
        (scroll_one screen bx rands ob0 score digits k).2.2.2 j ob ht
      exact ⟨s', d', k', by simpa [scroll_obstacles] using hres⟩

/-- C5: during one `scroll_world` tick, any obstacle whose x after the
one-cell leftward decrement is below minus the width of its top part's
first view is recycled: its x is reset to the screen's right edge, its
vertical center is resampled as `rand() % (height - height/2) + height/4`
(hence landing in `[height/4, 3*height/4) = [20, 60)`), its score-awarded
flag is cleared, and its part entities are repositioned to
`(x, y - gap)` and `(x, y + gap)`.  An obstacle starting the tick at
x = -(topWidth+1) satisfies the hypothesis, so it is always recycled. -/
theorem scroll_world_recycles_obstacle :
    ∀ (gs : GameState) (rands : Nat → Nat) (i : Nat) (ob : Obstacle),
      gs.obstacles[i]? = some ob →
      ob.x - 1 < -(ob.top_entity.views.getD 0 defaultView).width →
      ∃ ob', (scroll_world gs rands).obstacles[i]? = some ob' ∧
        ob'.x = (SCREEN_WIDTH : Int) ∧
        (∃ r : Nat,
          ob'.y = ((r % (SCREEN_HEIGHT - SCREEN_HEIGHT / 2) + SCREEN_HEIGHT / 4 : Nat) : Int)) ∧
        20 ≤ ob'.y ∧ ob'.y < 60 ∧
        ob'.score_collected = false ∧
        ob'.top_entity.x = (SCREEN_WIDTH : Int) ∧
        ob'.top_entity.y = ob'.y - ob.gap_size ∧
        ob'.bottom_entity.x = (SCREEN_WIDTH : Int) ∧
        ob'.bottom_entity.y = ob'.y + ob.gap_size := by
  intro gs rands i ob ht h
  obtain ⟨s', d', k', hres⟩ := scroll_obstacles_getElem? gs.obstacles gs.screen_type
    gs.bird.entity.x rands gs.score gs.score_counter 0 i ob ht
  rw [scroll_one_recycled gs.screen_type gs.bird.entity.x rands ob s' d' k' h] at hres
  have hobs : (scroll_world gs rands).obstacles =
      (scroll_obstacles gs.screen_type gs.bird.entity.x rands gs.obstacles gs.score
        gs.score_counter 0).1 := by
    simp only [scroll_world]
    split <;> rfl
  rw [hobs]
  have h40 : SCREEN_HEIGHT - SCREEN_HEIGHT / 2 = 40 := by decide
  have h20 : SCREEN_HEIGHT / 4 = 20 := by decide
  have hmod : rands k' % 40 < 40 := Nat.mod_lt _ (by norm_num)
  refine ⟨_, hres, by simp [update_obstacle], ⟨rands k', by simp [update_obstacle]⟩,
    ?_, ?_, by simp [update_obstacle], by simp [update_obstacle],
    by simp [update_obstacle], by simp [update_obstacle], by simp [update_obstacle]⟩
  · show (20 : Int) ≤ _
    simp only [update_obstacle, h40, h20]
    exact_mod_cast Nat.le_add_left 20 (rands k' % 40)
  · show _ < (60 : Int)
    simp only [update_obstacle, h40, h20]
    exact_mod_cast (by omega : rands k' % 40 + 20 < 60)

/-- C5 witness: the concrete obstacle at x = -(topWidth+1) = -11 in
`titleGameState` is recycled by one tick with the constant rand stream 5:
all recycled-state properties hold. -/
theorem scroll_world_recycles_obstacle_witness :
    ∃ ob', (scroll_world titleGameState (fun _ => 5)).obstacles[0]? = some ob' ∧
      ob'.x = (SCREEN_WIDTH : Int) ∧
      (∃ r : Nat,
        ob'.y = ((r % (SCREEN_HEIGHT - SCREEN_HEIGHT / 2) + SCREEN_HEIGHT / 4 : Nat) : Int)) ∧
      20 ≤ ob'.y ∧ ob'.y < 60 ∧
      ob'.score_collected = false ∧
      ob'.top_entity.x = (SCREEN_WIDTH : Int) ∧
      ob'.top_entity.y = ob'.y - recycledObstacle.gap_size ∧
      ob'.bottom_entity.x = (SCREEN_WIDTH : Int) ∧
      ob'.bottom_entity.y = ob'.y + recycledObstacle.gap_size :=
  scroll_world_recycles_obstacle titleGameState (fun _ => 5) 0 recycledObstacle rfl (by decide)

lemma reposition_obstacles_getElem? :
    ∀ (l : List Obstacle) (rands : Nat → Nat) (count i0 i : Nat) (ob : Obstacle),
      l[i]? = some ob →
      (reposition_obstacles rands count l i0)[i]? =
        some (update_obstacle
          { ob with
            x := ((SCREEN_WIDTH / 4 + (i0 + i) * SCREEN_WIDTH / count : Nat) : Int)
            y := ((rands (i0 + i) % (SCREEN_HEIGHT - SCREEN_HEIGHT / 2) +
              SCREEN_HEIGHT / 4 : Nat) : Int)
            score_collected := false }) := by
  intro l
  induction l with
  | nil =>
    intro rands count i0 i ob ht
    exact absurd ht (by simp)
  | cons ob0 rest ih =>
    intro rands count i0 i ob ht
    cases i with
    | zero =>
      rw [List.getElem?_cons_zero] at ht
      have hob : ob = ob0 := (Option.some_injective _ ht).symm
      subst hob
      simp [reposition_obstacles]
    | succ j =>
      rw [List.getElem?_cons_succ] at ht
      have hres := ih rands count (i0 + 1) j ob ht
      have harg : i0 + 1 + j = i0 + (j + 1) := by omega
      rw [harg] at hres
      simp only [reposition_obstacles, List.getElem?_cons_succ]
      exact hres

lemma game_tick_keys_noKeys (gs : GameState) (rands : Nat → Nat) :
    game_tick_keys gs noKeys rands = gs := by
  simp [game_tick_keys, noKeys]

/-- With only the flap key held on the title screen, the key scan starts
the game, and only the bird's velocity and animation view change on top of
`start_game`'s effects. -/
lemma game_tick_keys_flap_title (gs : GameState) (rands : Nat → Nat)
    (hs : gs.screen_type = ScreenType.TITLE_SCREEN) :
    (game_tick_keys gs flapKeys rands).screen_type = ScreenType.GAME_SCREEN ∧
    (game_tick_keys gs flapKeys rands).obstacles = (start_game gs rands).obstacles ∧
    (game_tick_keys gs flapKeys rands).bird.entity =
      next_entity_view (start_game gs rands).bird.entity := by
  refine ⟨?_, ?_, ?_⟩ <;>
  · simp only [game_tick_keys, flapKeys]
    simp only [Bool.false_eq_true, if_false, if_true, reduceIte]
    rw [if_pos hs]
    split <;> rfl

lemma game_tick_gravity_fields (gs : GameState) :
    (game_tick_gravity gs).screen_type = gs.screen_type ∧
    (game_tick_gravity gs).bird.entity = gs.bird.entity ∧
    (game_tick_gravity gs).obstacles = gs.obstacles := by
  unfold game_tick_gravity
  split <;> exact ⟨rfl, rfl, rfl⟩

lemma end_game_ended (gs : GameState) : endedState (end_game gs) :=
  ⟨rfl, rfl, rfl, rfl⟩

lemma collide_step_bird (gs : GameState) (ob : Obstacle) :
    (collide_step gs ob).bird = gs.bird := by
  unfold collide_step
  split <;> rfl

lemma collide_step_ended (gs : GameState) (ob : Obstacle) (h : endedState gs) :
    endedState (collide_step gs ob) := by
  unfold collide_step
  split
  · exact end_game_ended gs
  · exact h

lemma foldl_collide_bird : ∀ (l : List Obstacle) (gs : GameState),
    (l.foldl collide_step gs).bird = gs.bird := by
  intro l
  induction l with
  | nil => intro gs; rfl
  | cons ob rest ih =>
    intro gs
    rw [List.foldl_cons, ih, collide_step_bird]

lemma foldl_collide_ended : ∀ (l : List Obstacle) (gs : GameState),
    endedState gs → endedState (l.foldl collide_step gs) := by
  intro l
  induction l with
  | nil => intro gs h; exact h
  | cons ob rest ih =>
    intro gs h
    rw [List.foldl_cons]
    exact ih _ (collide_step_ended gs ob h)

lemma foldl_collide_of_mem : ∀ (l : List Obstacle) (gs : GameState) (ob : Obstacle),
    ob ∈ l →
    (check_collision gs.bird.entity ob.top_entity ||
      check_collision gs.bird.entity ob.bottom_entity) = true →
    endedState (l.foldl collide_step gs) := by
  intro l
  induction l with
  | nil =>
    intro gs ob hmem _
    exact absurd hmem (List.not_mem_nil ob)
  | cons ob0 rest ih =>
    intro gs ob hmem hcol
    rw [List.foldl_cons]
    rcases List.mem_cons.mp hmem with rfl | hmem'
    · have hstep : collide_step gs ob = end_game gs := by
        unfold collide_step
        rw [if_pos hcol]
      rw [hstep]
      exact foldl_collide_ended rest (end_game gs) (end_game_ended gs)
    · apply ih (collide_step gs ob0) ob hmem'
      rw [collide_step_bird]
      exact hcol

lemma foldl_collide_id : ∀ (l : List Obstacle) (gs : GameState),
    (∀ ob ∈ l, check_collision gs.bird.entity ob.top_entity = false ∧
      check_collision gs.bird.entity ob.bottom_entity = false) →
    l.foldl collide_step gs = gs := by
  intro l
  induction l with
  | nil => intro gs _; rfl
  | cons ob0 rest ih =>
    intro gs h
    rw [List.foldl_cons]
    have h0 := h ob0 (List.mem_cons_self ob0 rest)
    have hstep : collide_step gs ob0 = gs := by
      unfold collide_step
      rw [h0.1, h0.2]
      simp
    rw [hstep]
    exact ih gs (fun ob hm => h ob (List.mem_cons_of_mem _ hm))

lemma game_tick_checks_ended_of_collision (gs : GameState) (ob : Obstacle)
    (hmem : ob ∈ gs.obstacles)
    (hcol : (check_collision gs.bird.entity ob.top_entity ||
      check_collision gs.bird.entity ob.bottom_entity) = true) :
    endedState (game_tick_checks gs) := by
  simp only [game_tick_checks]
  have hended := foldl_collide_of_mem gs.obstacles gs ob hmem hcol
  split
  · exact end_game_ended _
  · exact hended

lemma game_tick_checks_ended_of_oob (gs : GameState)
    (hoob : gs.bird.entity.x < 0 ∨ gs.bird.entity.x > (SCREEN_WIDTH : Int) ∨
      gs.bird.entity.y < 0 ∨ gs.bird.entity.y > (SCREEN_HEIGHT : Int)) :
    endedState (game_tick_checks gs) := by
  simp only [game_tick_checks]
  rw [if_pos (by rw [foldl_collide_bird gs.obstacles gs]; exact hoob)]
  exact end_game_ended _

lemma game_tick_checks_id (gs : GameState)
    (hno : ∀ ob ∈ gs.obstacles, check_collision gs.bird.entity ob.top_entity = false ∧
      check_collision gs.bird.entity ob.bottom_entity = false)
    (hin : ¬ (gs.bird.entity.x < 0 ∨ gs.bird.entity.x > (SCREEN_WIDTH : Int) ∨
      gs.bird.entity.y < 0 ∨ gs.bird.entity.y > (SCREEN_HEIGHT : Int))) :
    game_tick_checks gs = gs := by
  simp only [game_tick_checks]
  rw [foldl_collide_id gs.obstacles gs hno, if_neg hin]

/-- C4: `start_game` (the Title→Playing action triggered by the flap key)
switches to the game screen, zeroes the score and refreshes the score
display, hides the title/prompt decorations, puts the bird at the fixed
start point (10, 40), and repositions every obstacle to evenly spaced
x-positions with fresh random centers in [20, 60) and cleared
score-awarded flags.  `end_game` re-enters the title screen with score 0
and the decorations shown.  At the `game_tick` level: in state Title the
flap key yields the game screen (provided the freshly placed obstacles do
not immediately overlap the bird), and in state Playing a bird-obstacle
collision or the bird leaving `[0,width] x [0,height]` yields the
`end_game` state. -/
theorem game_state_transitions :
    (∀ (gs : GameState) (rands : Nat → Nat),
      (start_game gs rands).screen_type = ScreenType.GAME_SCREEN ∧
      (start_game gs rands).score = 0 ∧
      (start_game gs rands).score_counter = update_score_counter gs.score_counter 0 ∧
      (start_game gs rands).title_text.visible = false ∧
      (start_game gs rands).press_space_to_start.visible = false ∧
      (start_game gs rands).bird.entity.x = 10 ∧
      (start_game gs rands).bird.entity.y = 40 ∧
      (∀ (i : Nat) (ob : Obstacle), gs.obstacles[i]? = some ob →
        ∃ ob', (start_game gs rands).obstacles[i]? = some ob' ∧
          ob'.x = ((SCREEN_WIDTH / 4 + i * SCREEN_WIDTH / gs.obstacles.length : Nat) : Int) ∧
          20 ≤ ob'.y ∧ ob'.y < 60 ∧ ob'.score_collected = false ∧
          ob'.top_entity.x = ob'.x ∧ ob'.top_entity.y = ob'.y - ob.gap_size ∧
          ob'.bottom_entity.x = ob'.x ∧ ob'.bottom_entity.y = ob'.y + ob.gap_size)) ∧
    (∀ gs : GameState, endedState (end_game gs)) ∧
    (∀ (gs : GameState) (rands : Nat → Nat),
      gs.screen_type = ScreenType.TITLE_SCREEN →
      (∀ ob ∈ (start_game gs rands).obstacles,
        check_collision (next_entity_view (start_game gs rands).bird.entity) ob.top_entity
          = false ∧
        check_collision (next_entity_view (start_game gs rands).bird.entity) ob.bottom_entity
          = false) →
      (game_tick gs flapKeys rands).screen_type = ScreenType.GAME_SCREEN) ∧
    (∀ (gs : GameState) (rands : Nat → Nat),
      gs.screen_type = ScreenType.GAME_SCREEN →
      ((∃ ob ∈ gs.obstacles,
        (check_collision gs.bird.entity ob.top_entity ||
         check_collision gs.bird.entity ob.bottom_entity) = true) ∨
       (gs.bird.entity.x < 0 ∨ gs.bird.entity.x > (SCREEN_WIDTH : Int) ∨
        gs.bird.entity.y < 0 ∨ gs.bird.entity.y > (SCREEN_HEIGHT : Int))) →
      endedState (game_tick gs noKeys rands)) := by
  refine ⟨?_, fun gs => end_game_ended gs, ?_, ?_⟩
  · intro gs rands
    refine ⟨rfl, rfl, rfl, rfl, rfl, rfl, rfl, ?_⟩
    intro i ob ht
    have hobs : (start_game gs rands).obstacles =
        reposition_obstacles rands gs.obstacles.length gs.obstacles 0 := rfl
    have hres := reposition_obstacles_getElem? gs.obstacles rands gs.obstacles.length 0 i ob ht
    simp only [Nat.zero_add] at hres
    rw [hobs]
    have h40 : SCREEN_HEIGHT - SCREEN_HEIGHT / 2 = 40 := by decide
    have h20 : SCREEN_HEIGHT / 4 = 20 := by decide
    have hmod : rands i % 40 < 40 := Nat.mod_lt _ (by norm_num)
    refine ⟨_, hres, by simp [update_obstacle], ?_, ?_, by simp [update_obstacle],
      by simp [update_obstacle], by simp [update_obstacle], by simp [update_obstacle],
      by simp [update_obstacle]⟩
    · show (20 : Int) ≤ _
      simp only [update_obstacle, h40, h20]
      exact_mod_cast Nat.le_add_left 20 (rands i % 40)
    · show _ < (60 : Int)
      simp only [update_obstacle, h40, h20]
      exact_mod_cast (by omega : rands i % 40 + 20 < 60)
  · intro gs rands hs hno
    obtain ⟨hk1, hk2, hk3⟩ := game_tick_keys_flap_title gs rands hs
    obtain ⟨hg1, hg2, hg3⟩ := game_tick_gravity_fields (game_tick_keys gs flapKeys rands)
    have hscr2 : (game_tick_gravity (game_tick_keys gs flapKeys rands)).screen_type =
        ScreenType.GAME_SCREEN := by rw [hg1, hk1]
    have hx : (game_tick_gravity (game_tick_keys gs flapKeys rands)).bird.entity.x = 10 := by
      rw [hg2, hk3]
      rfl
    have hy : (game_tick_gravity (game_tick_keys gs flapKeys rands)).bird.entity.y = 40 := by
      rw [hg2, hk3]
      rfl
    simp only [game_tick]
    have h3 : (if (game_tick_gravity (game_tick_keys gs flapKeys rands)).screen_type =
          ScreenType.TITLE_SCREEN then
            game_tick_autopilot (game_tick_gravity (game_tick_keys gs flapKeys rands)) rands
          else game_tick_gravity (game_tick_keys gs flapKeys rands)) =
        game_tick_gravity (game_tick_keys gs flapKeys rands) := by
      rw [hscr2]
      simp
    rw [h3, if_pos hscr2]
    have hid : game_tick_checks (game_tick_gravity (game_tick_keys gs flapKeys rands)) =
        game_tick_gravity (game_tick_keys gs flapKeys rands) := by
      apply game_tick_checks_id
      · intro ob hm
        rw [hg2, hk3]
        exact hno ob (by rwa [hg3, hk2] at hm)
      · rw [hx, hy]
        decide
    rw [hid]
    exact hscr2
  · intro gs rands hs hcond
    rw [show game_tick gs noKeys rands =
        (let g2 := game_tick_gravity gs
         let g3 := if g2.screen_type = ScreenType.TITLE_SCREEN then game_tick_autopilot g2 rands
           else g2
         let g4 := if g3.screen_type = ScreenType.GAME_SCREEN then game_tick_checks g3 else g3
         { g4 with bird := { g4.bird with entity :=
           { g4.bird.entity with y := g4.bird.entity.y + floatToIntTrunc g4.bird.velocity } } })
      from by rw [game_tick, game_tick_keys_noKeys]]
    obtain ⟨hg1, hg2, hg3⟩ := game_tick_gravity_fields gs
    have hscr2 : (game_tick_gravity gs).screen_type = ScreenType.GAME_SCREEN := by
      rw [hg1, hs]
    simp only []
    have h3 : (if (game_tick_gravity gs).screen_type = ScreenType.TITLE_SCREEN then
          game_tick_autopilot (game_tick_gravity gs) rands
        else game_tick_gravity gs) = game_tick_gravity gs := by
      rw [hscr2]
      simp
    rw [h3, if_pos hscr2]
    have hE : endedState (game_tick_checks (game_tick_gravity gs)) := by
      rcases hcond with ⟨ob, hmem, hcol⟩ | hoob
      · exact game_tick_checks_ended_of_collision _ ob (by rwa [hg3])
          (by rw [hg2]; exact hcol)
      · exact game_tick_checks_ended_of_oob _ (by rw [hg2]; exact hoob)
    exact ⟨hE.1, hE.2.1, hE.2.2.1, hE.2.2.2⟩

/-- C4 witness: the four transition parts at concrete states — starting
from `titleGameState` (with its single obstacle repositioned away from the
bird) and ending from `oobGameState` (bird at x = -1 on the game
screen). -/
theorem game_state_transitions_witness :
    (start_game titleGameState (fun _ => 5)).screen_type = ScreenType.GAME_SCREEN ∧
    endedState (end_game oobGameState) ∧
    (game_tick titleGameState flapKeys (fun _ => 5)).screen_type = ScreenType.GAME_SCREEN ∧
    endedState (game_tick oobGameState noKeys (fun _ => 5)) := by
  have h := game_state_transitions
  exact ⟨(h.1 titleGameState (fun _ => 5)).1, h.2.1 oobGameState,
    h.2.2.1 titleGameState (fun _ => 5) rfl (by decide),
    h.2.2.2 oobGameState (fun _ => 5) rfl (Or.inr (by decide))⟩

/-- The `'='` border pass of `render_next_frame`: rows 0 and
`SCREEN_HEIGHT - 1` become `'='` for every x below the loop bound, other
cells are untouched. -/
lemma border_x_fold :
    ∀ (n : Nat) (fr : Frame) (a b : Nat),
      ((List.range n).foldl
        (fun fr x => setCell (setCell fr x 0 '=') x (SCREEN_HEIGHT - 1) '=') fr) a b =
      if a < n ∧ (b = 0 ∨ b = SCREEN_HEIGHT - 1) then '=' else fr a b := by
  intro n
  induction n with
  | zero =>
    intro fr a b
    rw [if_neg (by omega)]
    rfl
  | succ n ihn =>
    intro fr a b
    rw [List.range_succ, List.foldl_append, List.foldl_cons, List.foldl_nil]
    simp only [setCell]
    rw [ihn]
    by_cases h1 : a = n ∧ b = SCREEN_HEIGHT - 1
    · rw [if_pos h1, if_pos (by omega)]
    · rw [if_neg h1]
      by_cases h2 : a = n ∧ b = 0
      · rw [if_pos h2, if_pos (by omega)]
      · rw [if_neg h2]
        by_cases h3 : a < n ∧ (b = 0 ∨ b = SCREEN_HEIGHT - 1)
        · rw [if_pos h3, if_pos (by omega)]
        · rw [if_neg h3, if_neg (by omega)]

/-- The `'|'` border pass of `render_next_frame`: columns 0 and
`SCREEN_WIDTH - 1` become `'|'` for every y below the loop bound, other
cells are untouched. -/
lemma border_y_fold :
    ∀ (n : Nat) (fr : Frame) (a b : Nat),
      ((List.range n).foldl
        (fun fr y => setCell (setCell fr 0 y '|') (SCREEN_WIDTH - 1) y '|') fr) a b =
      if b < n ∧ (a = 0 ∨ a = SCREEN_WIDTH - 1) then '|' else fr a b := by
  intro n
  induction n with
  | zero =>
    intro fr a b
    rw [if_neg (by omega)]
    rfl
  | succ n ihn =>
    intro fr a b
    rw [List.range_succ, List.foldl_append, List.foldl_cons, List.foldl_nil]
    simp only [setCell]
    rw [ihn]
    by_cases h1 : a = SCREEN_WIDTH - 1 ∧ b = n
    · rw [if_pos h1, if_pos (by omega)]
    · rw [if_neg h1]
      by_cases h2 : a = 0 ∧ b = n
      · rw [if_pos h2, if_pos (by omega)]
      · rw [if_neg h2]
        by_cases h3 : b < n ∧ (a = 0 ∨ a = SCREEN_WIDTH - 1)
        · rw [if_pos h3, if_pos (by omega)]
        · rw [if_neg h3, if_neg (by omega)]

/-- C8 counterexample.  The corner cell (0,0) of the produced grid holds
`'|'`, not `'='`: the claimed "top row consists entirely of '='" is false,
because the `'|'` column pass runs after the `'='` row pass and overwrites
the corners. -/
theorem render_next_frame_corner_is_pipe :
    render_next_frame [] 0 0 = '|' ∧ render_next_frame [] 0 0 ≠ '=' := by
  have hv : render_next_frame [] 0 0 = '|' := by
    simp only [render_next_frame, List.foldl_nil]
    rw [border_y_fold]
    rw [if_pos (by refine ⟨by decide, Or.inl rfl⟩)]
  exact ⟨hv, by rw [hv]; decide⟩

/-- C8 (amended): for every entity list and entity content, after
`render_next_frame` the leftmost and rightmost columns consist entirely of
`'|'`, and the top and bottom rows consist of `'='` everywhere except
their corner cells, which hold `'|'`; the border is painted after all
entities, so no entity glyph ever occludes a border cell. -/
theorem render_next_frame_border :
    ∀ (entities : List Entity) (a b : Nat),
      a < SCREEN_WIDTH → b < SCREEN_HEIGHT →
      ((a = 0 ∨ a = SCREEN_WIDTH - 1) → render_next_frame entities a b = '|') ∧
      ((b = 0 ∨ b = SCREEN_HEIGHT - 1) → a ≠ 0 → a ≠ SCREEN_WIDTH - 1 →
        render_next_frame entities a b = '=') := by
  intro entities a b ha hb
  constructor
  · intro hcol
    simp only [render_next_frame]
    rw [border_y_fold, if_pos ⟨hb, hcol⟩]
  · intro hrow ha0 ha1
    simp only [render_next_frame]
    rw [border_y_fold, if_neg (by tauto), border_x_fold, if_pos ⟨ha, hrow⟩]

/-- C8 witness: the amended border description at the concrete cells
(0, 5) (left column), (7, 0) (top row off the corners), with no entities
painted and with one entity painted. -/
theorem render_next_frame_border_witness :
    (render_next_frame [] 0 5 = '|') ∧
    (render_next_frame [] 7 0 = '=') ∧
    (render_next_frame [boxEntityA] 0 5 = '|') ∧
    (render_next_frame [boxEntityA] 7 0 = '=') := by
  refine ⟨(render_next_frame_border [] 0 5 (by decide) (by decide)).1 (Or.inl rfl),
    (render_next_frame_border [] 7 0 (by decide) (by decide)).2 (Or.inl rfl)
      (by decide) (by decide),
    (render_next_frame_border [boxEntityA] 0 5 (by decide) (by decide)).1 (Or.inl rfl),
    (render_next_frame_border [boxEntityA] 7 0 (by decide) (by decide)).2 (Or.inl rfl)
      (by decide) (by decide)⟩

/-- Membership in a y-outer/x-inner scan of a w x h grid. -/
lemma scanGrid_mem (w : Nat) :
    ∀ (h : Nat) (p : Nat × Nat),
      p ∈ (List.range h).flatMap (fun y => (List.range w).map (fun x => (x, y))) ↔
        p.1 < w ∧ p.2 < h := by
  intro h
  induction h with
  | zero =>
    intro p
    simp
  | succ h ih =>
    intro p
    obtain ⟨a, b⟩ := p
    rw [List.range_succ, List.flatMap_append]
    simp only [List.mem_append, ih, List.flatMap_cons, List.flatMap_nil, List.append_nil,
      List.mem_map, List.mem_range, Prod.mk.injEq]
    constructor
    · rintro (⟨h1, h2⟩ | ⟨x, hx, rfl, rfl⟩)
      · exact ⟨h1, by omega⟩
      · exact ⟨hx, by omega⟩
    · rintro ⟨h1, h2⟩
      rcases eq_or_ne b h with rfl | hne
      · exact Or.inr ⟨a, h1, rfl, rfl⟩
      · exact Or.inl ⟨h1, by omega⟩

/-- A y-outer/x-inner scan of a grid visits each cell at most once. -/
lemma scanGrid_nodup (w : Nat) :
    ∀ h : Nat,
      ((List.range h).flatMap (fun y => (List.range w).map (fun x => (x, y)))).Nodup := by
  intro h
  induction h with
  | zero => simp
  | succ h ih =>
    rw [List.range_succ, List.flatMap_append]
    refine List.Nodup.append ih ?_ ?_
    · simp only [List.flatMap_cons, List.flatMap_nil, List.append_nil]
      exact (List.nodup_range w).map (fun a b hab => by simpa using hab)
    · intro p hp1 hp2
      have h1 := (scanGrid_mem w h p).mp hp1
      simp only [List.flatMap_cons, List.flatMap_nil, List.append_nil, List.mem_map,
        List.mem_range] at hp2
      obtain ⟨x, _, rfl⟩ := hp2
      exact absurd h1.2 (by simp)

lemma scanCells_mem (p : Nat × Nat) :
    p ∈ scanCells ↔ p.1 < SCREEN_WIDTH ∧ p.2 < SCREEN_HEIGHT :=
  scanGrid_mem SCREEN_WIDTH SCREEN_HEIGHT p

lemma scanCells_nodup : scanCells.Nodup :=
  scanGrid_nodup SCREEN_WIDTH SCREEN_HEIGHT

/-- The flush loop over any duplicate-free cell list: the emitted writes
are exactly (in order) the cells where current and next differ, carrying
the next value, and afterwards the current frame holds the next value on
every visited cell and is untouched elsewhere. -/
lemma update_display_foldl_spec (nxt : Frame) :
    ∀ (l : List (Nat × Nat)), l.Nodup → ∀ (cur : Frame) (ws : List CellWrite),
      (l.foldl (update_display_step nxt) (cur, ws)).2 =
        ws ++ l.filterMap (fun p => if cur p.1 p.2 ≠ nxt p.1 p.2 then
          some ⟨p.1, p.2, nxt p.1 p.2⟩ else none) ∧
      ∀ a b, (l.foldl (update_display_step nxt) (cur, ws)).1 a b =
        if (a, b) ∈ l then nxt a b else cur a b := by
  intro l
  induction l with
  | nil =>
    intro _ cur ws
    exact ⟨by simp, fun a b => by simp⟩
  | cons p t ih =>
    intro hnd cur ws
    obtain ⟨hp, hnd'⟩ := List.nodup_cons.mp hnd
    rw [List.foldl_cons]
    by_cases hc : cur p.1 p.2 ≠ nxt p.1 p.2
    · have hstep : update_display_step nxt (cur, ws) p =
          (setCell cur p.1 p.2 (nxt p.1 p.2),
            ws ++ [⟨p.1, p.2, nxt p.1 p.2⟩]) := by
        unfold update_display_step
        rw [if_pos hc]
      rw [hstep]
      obtain ⟨ih1, ih2⟩ := ih hnd' (setCell cur p.1 p.2 (nxt p.1 p.2))
        (ws ++ [⟨p.1, p.2, nxt p.1 p.2⟩])
      have hcell : ∀ q ∈ t, setCell cur p.1 p.2 (nxt p.1 p.2) q.1 q.2 = cur q.1 q.2 := by
        intro q hq
        have hqp : q ≠ p := fun h => hp (h ▸ hq)
        unfold setCell
        rw [if_neg (fun hand => hqp (Prod.ext hand.1 hand.2))]
      constructor
      · rw [ih1]
        have hfm : t.filterMap (fun q =>
              if setCell cur p.1 p.2 (nxt p.1 p.2) q.1 q.2 ≠ nxt q.1 q.2 then
                some (⟨q.1, q.2, nxt q.1 q.2⟩ : CellWrite) else none) =
            t.filterMap (fun q => if cur q.1 q.2 ≠ nxt q.1 q.2 then
              some ⟨q.1, q.2, nxt q.1 q.2⟩ else none) := by
          apply List.filterMap_congr
          intro q hq
          rw [hcell q hq]
        rw [hfm, List.filterMap_cons_some (by rw [if_pos hc]), List.append_assoc,
          List.singleton_append]
      · intro a b
        rw [ih2 a b]
        by_cases hab : (a, b) ∈ t
        · rw [if_pos hab, if_pos (List.mem_cons_of_mem p hab)]
        · rw [if_neg hab]
          rcases eq_or_ne (a, b) p with he | hne
          · rw [if_pos (he ▸ List.mem_cons_self p t)]
            unfold setCell
            rw [if_pos ⟨congrArg Prod.fst he, congrArg Prod.snd he⟩,
              show a = p.1 from congrArg Prod.fst he,
              show b = p.2 from congrArg Prod.snd he]
          · rw [if_neg (by simp [List.mem_cons, hne, hab])]
            unfold setCell
            rw [if_neg (fun hand => hne (Prod.ext hand.1 hand.2))]
    · have hstep : update_display_step nxt (cur, ws) p = (cur, ws) := by
        unfold update_display_step
        rw [if_neg hc]
      rw [hstep]
      obtain ⟨ih1, ih2⟩ := ih hnd' cur ws
      push_neg at hc
      constructor
      · rw [ih1, List.filterMap_cons_none (by rw [if_neg (by simp [hc])])]
      · intro a b
        rw [ih2 a b]
        rcases eq_or_ne (a, b) p with he | hne
        · rw [if_neg (he ▸ hp), if_pos (he ▸ List.mem_cons_self p t),
            show a = p.1 from congrArg Prod.fst he,
            show b = p.2 from congrArg Prod.snd he, hc]
        · by_cases hab : (a, b) ∈ t
          · rw [if_pos hab, if_pos (List.mem_cons_of_mem p hab)]
          · rw [if_neg hab, if_neg (by simp [List.mem_cons, hne, hab])]

/-- A `filterMap` whose function is an if-then-some-else-none is the map
of the matching filter. -/
lemma filterMap_ite_eq_map_filter (l : List α) (q : α → Prop) [DecidablePred q]
    (g : α → β) :
    l.filterMap (fun a => if q a then some (g a) else none) =
      (l.filter (fun a => decide (q a))).map g := by
  induction l with
  | nil => rfl
  | cons a t ih =>
    by_cases h : q a
    · rw [List.filterMap_cons_some (by rw [if_pos h]), List.filter_cons_of_pos
        (by simpa using h), List.map_cons, ih]
    · rw [List.filterMap_cons_none (by rw [if_neg h]), List.filter_cons_of_neg
        (by simpa using h), ih]

/-- The length of a duplicate-free list's filter equals the cardinality of
the corresponding filtered finset. -/
lemma length_filter_eq_card_filter {α : Type} [DecidableEq α] (l : List α)
    (hnd : l.Nodup) (s : Finset α) (q : α → Prop) [DecidablePred q]
    (hmem : ∀ a, a ∈ l ↔ a ∈ s) :
    (l.filter (fun a => decide (q a))).length = (s.filter q).card := by
  have hndf : (l.filter (fun a => decide (q a))).Nodup := hnd.filter _
  rw [← List.toFinset_card_of_nodup hndf]
  congr 1
  ext a
  simp only [List.mem_toFinset, List.mem_filter, Finset.mem_filter, decide_eq_true_eq, hmem]

/-- C2: one display flush writes exactly the changed cells — the write
list is one positioned single-character write per differing cell in scan
order, its length is exactly the number K of differing cells of the
width x height grid (never width*height), and afterwards the current
frame equals the next frame on every grid cell. -/
theorem update_display_flush_spec :
    ∀ (current_frame next_frame : Frame),
      ((update_display current_frame next_frame).2 =
        scanCells.filterMap (fun p =>
          if current_frame p.1 p.2 ≠ next_frame p.1 p.2 then
            some ⟨p.1, p.2, next_frame p.1 p.2⟩ else none)) ∧
      ((update_display current_frame next_frame).2.length =
        ((Finset.range SCREEN_WIDTH ×ˢ Finset.range SCREEN_HEIGHT).filter
          (fun p => current_frame p.1 p.2 ≠ next_frame p.1 p.2)).card) ∧
      (∀ x y, x < SCREEN_WIDTH → y < SCREEN_HEIGHT →
        (update_display current_frame next_frame).1 x y = next_frame x y) := by
  intro cur nxt
  obtain ⟨h1, h2⟩ := update_display_foldl_spec nxt scanCells scanCells_nodup cur []
  have hw : (update_display cur nxt).2 =
      scanCells.filterMap (fun p => if cur p.1 p.2 ≠ nxt p.1 p.2 then
        some ⟨p.1, p.2, nxt p.1 p.2⟩ else none) := by
    rw [update_display, h1, List.nil_append]
  refine ⟨hw, ?_, ?_⟩
  · rw [hw, filterMap_ite_eq_map_filter scanCells
      (fun p => cur p.1 p.2 ≠ nxt p.1 p.2) (fun p => (⟨p.1, p.2, nxt p.1 p.2⟩ : CellWrite)),
      List.length_map]
    apply length_filter_eq_card_filter scanCells scanCells_nodup
    intro p
    rw [scanCells_mem, Finset.mem_product, Finset.mem_range, Finset.mem_range]
  · intro x y hx hy
    rw [update_display, h2 x y, if_pos ((scanCells_mem (x, y)).mpr ⟨hx, hy⟩)]

/-- C2 witness: flushing `dotFrame` against the blank current frame makes
the current frame hold the changed cell's character afterwards. -/
theorem update_display_flush_spec_witness :
    (update_display blankFrame dotFrame).1 0 0 = dotFrame 0 0 ∧
    (update_display blankFrame dotFrame).1 7 3 = dotFrame 7 3 :=
  ⟨(update_display_flush_spec blankFrame dotFrame).2.2 0 0 (by decide) (by decide),
   (update_display_flush_spec blankFrame dotFrame).2.2 7 3 (by decide) (by decide)⟩

/-- C6 witness: the amended invariant at concrete inputs — after creation,
after appending a view to a fresh entity, after advancing the view of a
one-view entity, and after a score update of a full digit list. -/
theorem entityInv_preservation_witness :
    entityInv create_entity ∧
    entityInv (add_entity_view create_entity squareView) ∧
    entityInv (next_entity_view boxEntityA) ∧
    (∀ e ∈ update_score_counter scoreDigits 7, entityInv e) := by
  have h := entityInv_preservation
  exact ⟨h.2.1, h.2.2.1 create_entity squareView (by decide) h.2.1,
    h.2.2.2.1 boxEntityA (by decide) (by decide),
    h.2.2.2.2 scoreDigits 7 (by decide) (by decide)⟩

end NotFlappyBird
